import Mathlib

/-!
# GoHTTP: a static file server (main.go)

A shallow embedding of `main.go`: the global `config`, `loadConfig`,
`loggingMiddleware`, `setupLogging` and `main`, as state-passing functions.

The program is glue around packages that are not part of the repository
(`gopkg.in/ini.v1`, `os`, `log`, `fmt`, `time`, `path/filepath`, `net/http`).
Their data is modelled here as far as the specification describes it; the value
a configuration key returns follows package ini itself (references of the form
`%(name)s` are substituted); and what is left open (how a duration or a log
header is rendered, how two path elements are joined, what the file server
answers) is a field of `Lib`.
-/

set_option autoImplicit false

namespace GoHTTP

/-! ## The configuration record (main.go 14-24) -/

/-- Configuration struct to hold server configuration (main.go 15-21). -/
structure Configuration where
  ServerName : String
  Port : String
  LogFolder : String
  LogLevel : String
  HTMLDir : String
  deriving DecidableEq, Repr

/-- The zero value of `Configuration`: what the global `config` holds when the
process starts (main.go 24). -/
def Configuration.zero : Configuration :=
  { ServerName := "", Port := "", LogFolder := "", LogLevel := "", HTMLDir := "" }

/-! ## The parsed configuration file (package ini)

Package ini (gopkg.in/ini.v1) is not in the repository. The specification
describes its data ("named sections, each containing named keys with string
values") and says that an absent key yields the empty string; it says nothing of
what the package does to a value it returns. `Key.String` below therefore
follows the package itself: a value is returned with its references of the form
`%(name)s` replaced by the value of the key `name`. -/

namespace ini

/-- Modelled from the spec: the keys of package ini are not in the repository. A
stored key: a name and a string value ("named keys with string values"). -/
structure KeyData where
  name : String
  value : String
  deriving DecidableEq, Repr

/-- Modelled from the spec: the sections of package ini are not in the
repository. A stored section: a name and its keys, in file order. -/
structure SectionData where
  name : String
  keys : List KeyData
  deriving DecidableEq, Repr

/-- Modelled from the spec: the `File` type of package ini is not in the
repository. A parsed file "organized into named sections, each containing named
keys with string values", in file order. -/
structure File where
  sections : List SectionData
  deriving DecidableEq, Repr

/-- The name of the section that holds the keys written before any section
header (`ini.DefaultSection`). -/
def DefaultSection : String :=
  "DEFAULT"

/-- The stored key `name` of section `sec`, if the file has it
(`(*Section).GetKey`; the sections the program reads, server and paths, have no
parent section, so the package's search of parent sections is left out). -/
def File.GetKey (f : File) (sec name : String) : Option KeyData :=
  match f.sections.find? (fun s => s.name == sec) with
  | some s => s.keys.find? (fun k => k.name == name)
  | none => none

/-- The value stored for key `name` of section `sec`, the empty string when the
file does not have the key. -/
def File.raw (f : File) (sec name : String) : String :=
  match f.GetKey sec name with
  | some k => k.value
  | none => ""

/-- A `*Section`: the file it belongs to, as it is now, and its name. -/
structure Section where
  f : File
  name : String
  deriving DecidableEq, Repr

/-- A `*Key`: the section it belongs to and its name. -/
structure Key where
  s : ini.Section
  name : String
  deriving DecidableEq, Repr

/-- Modelled from the spec: `(*File).Section` of package ini is not in the
repository. The section of that name; an absent section is created empty, so that
a lookup in it finds no key ("absent values as empty strings"). The empty name
stands for the default section. -/
def File.Section (f : File) (name : String) : ini.Section :=
  if f.sections.any (fun s => s.name == (if name = "" then DefaultSection else name)) then
    { f := f, name := if name = "" then DefaultSection else name }
  else
    { f := { sections := f.sections ++
              [{ name := if name = "" then DefaultSection else name, keys := [] }] }
      name := if name = "" then DefaultSection else name }

/-- The file with a new key `name`, of empty value, at the end of section `sec`. -/
def File.addKey (f : File) (sec name : String) : File :=
  { sections := f.sections.map (fun s =>
      if s.name = sec then { s with keys := s.keys ++ [{ name := name, value := "" }] }
      else s) }

/-- Modelled from the spec: `(*Section).Key` of package ini is not in the
repository. The key of that name; "an absent key yields an empty string": it is
created in the section with the empty value. -/
def Section.Key (s : ini.Section) (name : String) : ini.Key :=
  match s.f.GetKey s.name name with
  | some _ => { s := s, name := name }
  | none => { s := { s with f := s.f.addKey s.name name }, name := name }

/-- The value stored for a key. -/
def Key.value (k : ini.Key) : String :=
  k.s.f.raw k.s.name k.name

/-- The characters up to the first closing bracket, and what follows it. -/
def untilClose : List Char → Option (List Char × List Char)
  | [] => none
  | c :: cs =>
    if c = ')' then some ([], cs)
    else
      match untilClose cs with
      | some (n, rest) => some (c :: n, rest)
      | none => none

/-- The name `n` when the text starts with a reference `%(n)s`, `n` being one or
more characters other than a closing bracket. -/
def matchVarAt : List Char → Option (List Char)
  | c1 :: c2 :: cs =>
    if c1 = '%' ∧ c2 = '(' then
      match untilClose cs with
      | some (n, c3 :: _) => if n ≠ [] ∧ c3 = 's' then some n else none
      | _ => none
    else none
  | _ => none

/-- The name of the leftmost reference `%(name)s` in the text, if there is one
(the package's `varPattern.FindString`). -/
def findVar : List Char → Option (List Char)
  | [] => none
  | c :: cs =>
    match matchVarAt (c :: cs) with
    | some n => some n
    | none => findVar cs

/-- The value holds a reference `%(name)s`. -/
def hasRef (val : String) : Bool :=
  (findVar val.data).isSome

/-- The text with every occurrence of `old` replaced by `new`, from left to
right (`strings.Replace` with count -1); `skip` characters of an occurrence just
replaced are still to be passed over. -/
def replaceAll (old new : List Char) : Nat → List Char → List Char
  | _, [] => []
  | skip + 1, _ :: cs => replaceAll old new skip cs
  | 0, c :: cs =>
    if old ≠ [] ∧ old.isPrefixOf (c :: cs) then new ++ replaceAll old new (old.length - 1) cs
    else c :: replaceAll old new 0 cs

/-- The key a reference `%(noption)s` in the value of `k` stands for: the key of
that name in the section of `k`, and when there is none, or it is `k` itself,
the key of that name in the default section. -/
def resolve (k : ini.Key) (noption : String) : Option KeyData :=
  match k.s.f.GetKey k.s.name noption with
  | some nk => if noption = k.name then k.s.f.GetKey DefaultSection noption else some nk
  | none => k.s.f.GetKey DefaultSection noption

/-- The substitution loop of `(*Key).transformValue`: at most `depth` times, the
leftmost reference is looked up and all its occurrences are replaced by the
stored value of the key it stands for; the loop stops at a reference that stands
for no key. -/
def transformLoop (k : ini.Key) : Nat → List Char → List Char
  | 0, val => val
  | depth + 1, val =>
    match findVar val with
    | none => val
    | some n =>
      match resolve k (String.mk n) with
      | none => val
      | some nk =>
        transformLoop k depth
          (replaceAll ('%' :: '(' :: (n ++ [')', 's'])) nk.value.data 0 val)

/-- The method `(*Key).transformValue` of package ini: a value without a percent
sign is returned as it is, any other after at most 99 rounds of substitution. -/
def Key.transformValue (k : ini.Key) (val : String) : String :=
  if val.data.contains '%' then String.mk (transformLoop k 99 val.data) else val

/-- The method `(*Key).String` of package ini, which is not in the repository:
the stored value with its references `%(name)s` substituted. -/
def Key.String (k : ini.Key) : String :=
  k.transformValue k.value

/-- The file has a section `sec` in which key `key` is written with value `v`. -/
def File.Written (f : File) (sec key v : String) : Prop :=
  ∃ s ∈ f.sections, s.name = sec ∧ ∃ k ∈ s.keys, k.name = key ∧ k.value = v

/-- The file has a section `sec` holding a key `key`. -/
def File.HasKey (f : File) (sec key : String) : Prop :=
  ∃ s ∈ f.sections, s.name = sec ∧ ∃ k ∈ s.keys, k.name = key

/-- A well-formed file names every section once and, within a section, every
key once. -/
def File.WellFormed (f : File) : Prop :=
  (f.sections.map (fun s => s.name)).Nodup ∧
    ∀ s ∈ f.sections, (s.keys.map (fun k => k.name)).Nodup

/-- The file with every key `key` of every section `sec` given the value `v`;
nothing else changes. -/
def File.setValue (f : File) (sec key v : String) : File :=
  { sections := f.sections.map (fun s =>
      if s.name = sec then
        { s with keys := s.keys.map (fun k => if k.name = key then { k with value := v } else k) }
      else s) }

end ini

/-! ## loadConfig (main.go 26-40) -/

/-- The one thing `loadConfig` needs from outside the repository: `ini.Load`,
which reads and parses the file at a path or reports an error (the text of the
Go `error`). -/
abbrev IniLoad := String → Except String ini.File

/-- Function to read configuration from configuration.ini file (main.go 27-40).
The global `config` is passed in and out; the result is Go's `error`
(`none` is `nil`, `some msg` an error whose text is `msg`). `cfg` is a pointer
in the source: after each lookup it is the file as that lookup left it. -/
def loadConfig (Load : IniLoad) (filePath : String) (config : Configuration) :
    Option String × Configuration :=
  match Load filePath with
  | .error err => (some ("failed to read config file: " ++ err), config)
  | .ok cfg =>
    let name := (cfg.Section "server").Key "name"
    let config := { config with ServerName := name.String }
    let cfg := name.s.f
    let port := (cfg.Section "server").Key "port"
    let config := { config with Port := port.String }
    let cfg := port.s.f
    let logFolder := (cfg.Section "server").Key "log_folder"
    let config := { config with LogFolder := logFolder.String }
    let cfg := logFolder.s.f
    let logLevel := (cfg.Section "server").Key "log_level"
    let config := { config with LogLevel := logLevel.String }
    let cfg := logLevel.s.f
    let htmlDir := (cfg.Section "paths").Key "html_dir"
    let config := { config with HTMLDir := htmlDir.String }
    (none, config)

/-! ## The operating system as the program sees it: files, console, clock -/

/-- Modelled from the spec: the open flags of package os are not in the
repository. The flags of `os.OpenFile`, as names rather than bit masks. -/
inductive OpenFlag where
  | O_RDONLY
  | O_WRONLY
  | O_RDWR
  | O_APPEND
  | O_CREATE
  | O_EXCL
  | O_SYNC
  | O_TRUNC
  deriving DecidableEq, Repr

/-- Modelled from the spec: `os.File` is not in the repository. An open file:
the file it refers to, the flags it was opened with and its position. -/
structure OSFile where
  ino : Nat
  flags : List OpenFlag
  offset : Nat
  deriving DecidableEq, Repr

/-- Modelled from the spec: the file system is not in the repository. Paths name
files (`names`), a file has a content (`data`), `next` is the number the next new
file gets, and `openErr` is the error the system reports for a path that cannot
be opened for append/create ("permission denied, parent directory missing"). -/
structure FS where
  names : String → Option Nat
  data : Nat → String
  next : Nat
  openErr : String → Option String

/-- The content of the file at a path, `none` when no file is there. -/
def FS.content (fs : FS) (path : String) : Option String :=
  (fs.names path).map fs.data

/-- Modelled from the spec: `os.OpenFile` is not in the repository. It "opens
(creating if absent, appending if present)" as the flags say: `O_CREATE` makes an
absent file (empty), `O_TRUNC` empties a present one, `O_EXCL` with `O_CREATE`
refuses a present one; it fails "when the file cannot be opened". -/
def FS.OpenFile (fs : FS) (name : String) (flag : List OpenFlag) (_perm : Nat) :
    Except String (OSFile × FS) :=
  match fs.openErr name with
  | some err => .error err
  | none =>
    match fs.names name with
    | some i =>
      if OpenFlag.O_CREATE ∈ flag ∧ OpenFlag.O_EXCL ∈ flag then
        .error ("open " ++ name ++ ": file exists")
      else if OpenFlag.O_TRUNC ∈ flag then
        .ok ({ ino := i, flags := flag, offset := 0 },
             { fs with data := Function.update fs.data i "" })
      else
        .ok ({ ino := i, flags := flag, offset := 0 }, fs)
    | none =>
      if OpenFlag.O_CREATE ∈ flag then
        .ok ({ ino := fs.next, flags := flag, offset := 0 },
             { fs with
               names := Function.update fs.names name (some fs.next)
               data := Function.update fs.data fs.next ""
               next := fs.next + 1 })
      else
        .error ("open " ++ name ++ ": no such file or directory")

/-- The text `old` with `b` written at position `pos` (a gap is filled with NUL). -/
def splice (old : String) (pos : Nat) (b : String) : String :=
  String.mk (old.data.take pos ++ List.replicate (pos - old.length) (Char.ofNat 0)
    ++ b.data ++ old.data.drop (pos + b.length))

/-- Modelled from the spec: `(*os.File).Write` is not in the repository. A write
through an open file: at the end of the file when it was opened with `O_APPEND`
("appending if present"), at the file's position otherwise; nothing is written
through a file that was not opened for writing. -/
def FS.Write (fs : FS) (f : OSFile) (b : String) : FS × OSFile :=
  if OpenFlag.O_WRONLY ∈ f.flags ∨ OpenFlag.O_RDWR ∈ f.flags then
    let pos := if OpenFlag.O_APPEND ∈ f.flags then (fs.data f.ino).length else f.offset
    ({ fs with data := Function.update fs.data f.ino (splice (fs.data f.ino) pos b) },
     { f with offset := pos + b.length })
  else
    (fs, f)

/-- Modelled from the spec: the flags of package log are not in the repository. -/
inductive LogFlag where
  | Ldate
  | Ltime
  | Lmicroseconds
  | Llongfile
  | Lshortfile
  | LUTC
  | Lmsgprefix
  deriving DecidableEq, Repr

/-- Modelled from the spec: `log.LstdFlags` is not in the repository: the
"standard timestamp prefix", date and time. -/
def LstdFlags : List LogFlag :=
  [LogFlag.Ldate, LogFlag.Ltime]

/-- Where the standard logger writes: the process's standard error (its
destination until `log.SetOutput`) or an open file. -/
inductive Writer where
  | stderr
  | file (f : OSFile)
  deriving DecidableEq, Repr

/-- The part of the world the program acts on: the file system, what has been
written to standard output and standard error, the standard logger's output and
flags, and the clock (nanoseconds). -/
structure Env where
  fs : FS
  stdout : String
  stderr : String
  logOutput : Writer
  logFlags : List LogFlag
  now : Int

/-! ## HTTP handlers -/

/-- Modelled from the spec: `http.Request` is not in the repository. A request
with its method, URL path, header and body. -/
structure Request where
  Method : String
  URLPath : String
  Header : List (String × String)
  Body : String
  deriving DecidableEq, Repr

/-- Modelled from the spec: `http.ResponseWriter` is not in the repository. The
response written so far: status, headers, body. -/
structure ResponseWriter where
  status : Option Nat
  header : List (String × String)
  body : String
  deriving DecidableEq, Repr

/-- How a call ends: it returns, or it panics (the panic unwinds through the
caller). -/
inductive Exit where
  | returned
  | panicked
  deriving DecidableEq, Repr

/-- An `http.Handler`: `ServeHTTP(w, r)` acts on the response writer and on the
world. -/
abbrev Handler := ResponseWriter → Request → Env → Exit × ResponseWriter × Env

/-- What the program takes from outside the repository and the specification
leaves open. -/
structure Lib where
  /-- The function `ini.Load`. -/
  Load : IniLoad
  /-- The function `filepath.Join`, of two elements. -/
  Join : String → String → String
  /-- The header package log puts before a message: from the logger's flags,
  the time and the calling source location. -/
  formatHeader : List LogFlag → Int → String → String
  /-- The method `time.Duration.String`. -/
  durationString : Int → String
  /-- The handler `http.FileServer(http.Dir(root))`. -/
  FileServer : String → Handler
  /-- The call `http.ListenAndServe(addr, nil)`: `none` while it serves (it does not
  return), `some err` when it returns the error `err`. -/
  ListenAndServe : String → Option String

/-- A call of `fmt.Printf`, already formatted: the text goes to standard output. -/
def fmtPrintf (s : String) (e : Env) : Env :=
  { e with stdout := e.stdout ++ s }

/-- The line package log writes for a message: header, message, and a newline
unless the message ends in one. -/
def logLine (lib : Lib) (e : Env) (site msg : String) : String :=
  lib.formatHeader e.logFlags e.now site ++ msg ++
    (if msg = "" ∨ msg.back ≠ Char.ofNat 10 then "\n" else "")

/-- A call of `log.Printf`, already formatted, made at source location `site`: one line
is written to the logger's output. -/
def logPrintf (lib : Lib) (site msg : String) (e : Env) : Env :=
  match e.logOutput with
  | .stderr => { e with stderr := e.stderr ++ logLine lib e site msg }
  | .file f =>
    { e with
      fs := (e.fs.Write f (logLine lib e site msg)).1
      logOutput := .file (e.fs.Write f (logLine lib e site msg)).2 }

/-- What the logger's output holds: standard error, or the content of the file. -/
def Env.logSink (e : Env) : String :=
  match e.logOutput with
  | .stderr => e.stderr
  | .file f => e.fs.data f.ino

/-- The logger's output takes writes at its end: it is standard error, or a file
opened for writing with `O_APPEND`. -/
def Env.LogAppends (e : Env) : Prop :=
  match e.logOutput with
  | .stderr => True
  | .file f =>
    OpenFlag.O_APPEND ∈ f.flags ∧ (OpenFlag.O_WRONLY ∈ f.flags ∨ OpenFlag.O_RDWR ∈ f.flags)

/-! ## loggingMiddleware (main.go 42-54) -/

/-- The message of the record written before the inner handler runs. -/
def startedMsg (r : Request) : String :=
  "Started " ++ r.Method ++ " " ++ r.URLPath

/-- The message of the record written after the inner handler returned,
`elapsed` nanoseconds after the start. -/
def completedMsg (lib : Lib) (elapsed : Int) : String :=
  "Completed in " ++ lib.durationString elapsed

/-- The world in which the middleware calls the inner handler: the Started
record has gone to standard output (main.go 47) and to the logger (main.go 48). -/
def afterStarted (lib : Lib) (r : Request) (e : Env) : Env :=
  logPrintf lib "main.go:48" (startedMsg r) (fmtPrintf (startedMsg r ++ "\n") e)

/-- Logging middleware to log HTTP requests (main.go 43-54). -/
def loggingMiddleware (lib : Lib) (next : Handler) : Handler :=
  fun w r e =>
    let start := e.now
    let e := fmtPrintf ("Started " ++ r.Method ++ " " ++ r.URLPath ++ "\n") e
    let e := logPrintf lib "main.go:48" ("Started " ++ r.Method ++ " " ++ r.URLPath) e
    match next w r e with
    | (.panicked, w, e) => (.panicked, w, e)
    | (.returned, w, e) =>
      (.returned, w,
        logPrintf lib "main.go:52" ("Completed in " ++ lib.durationString (e.now - start)) e)

/-- The world `e2` differs from `e` at most in what has been written to standard
output, to standard error and to the logger's file (and in the position of the
logger's open file): the clock, the logger's flags, the names of the files and
the content of every other file are the same. -/
def Env.SameButOutput (e e2 : Env) : Prop :=
  e2.now = e.now ∧ e2.logFlags = e.logFlags ∧ e2.fs.names = e.fs.names ∧
  e2.fs.next = e.fs.next ∧ e2.fs.openErr = e.fs.openErr ∧
  (∀ i, (∀ f, e.logOutput = .file f → f.ino ≠ i) → e2.fs.data i = e.fs.data i) ∧
  (e.logOutput = .stderr → e2.logOutput = .stderr ∧ e2.fs = e.fs) ∧
  (∀ f, e.logOutput = .file f →
    ∃ f2, e2.logOutput = .file f2 ∧ f2.ino = f.ino ∧ f2.flags = f.flags ∧ e2.stderr = e.stderr)

/-- The world `e2` differs from `e` at most in the clock and in what
`Env.SameButOutput` lets differ: the output written and the position of the
logger's open file. -/
def Env.SameButOutputClock (e e2 : Env) : Prop :=
  e2.logFlags = e.logFlags ∧ e2.fs.names = e.fs.names ∧
  e2.fs.next = e.fs.next ∧ e2.fs.openErr = e.fs.openErr ∧
  (∀ i, (∀ f, e.logOutput = .file f → f.ino ≠ i) → e2.fs.data i = e.fs.data i) ∧
  (e.logOutput = .stderr → e2.logOutput = .stderr ∧ e2.fs = e.fs) ∧
  (∀ f, e.logOutput = .file f →
    ∃ f2, e2.logOutput = .file f2 ∧ f2.ino = f.ino ∧ f2.flags = f.flags ∧ e2.stderr = e.stderr)

/-! ## setupLogging (main.go 56-68) -/

/-- Setup logging to log file (main.go 57-68). The result is Go's `error`. -/
def setupLogging (lib : Lib) (logFolder : String) (e : Env) : Option String × Env :=
  let logPath := lib.Join logFolder "server.log"
  match e.fs.OpenFile logPath
      [OpenFlag.O_APPEND, OpenFlag.O_CREATE, OpenFlag.O_WRONLY] 0o644 with
  | .error err => (some ("could not open log file: " ++ err), e)
  | .ok (logFile, fs) =>
    (none, { e with
      fs := fs
      logOutput := .file logFile
      logFlags := LstdFlags ++ [LogFlag.Lshortfile] })

/-- What the program does with the log once it is set up: it sets logging up
again with the same folder, or it logs a message. -/
inductive LogStep where
  | again
  | printf (site msg : String)
  deriving DecidableEq, Repr

/-- One step on the log. -/
def LogStep.run (lib : Lib) (logFolder : String) : LogStep → Env → Env
  | .again, e => (setupLogging lib logFolder e).2
  | .printf site msg, e => logPrintf lib site msg e

/-- A sequence of steps on the log, in order. -/
def runLog (lib : Lib) (logFolder : String) (steps : List LogStep) (e : Env) : Env :=
  steps.foldl (fun e s => s.run lib logFolder e) e

/-- The state of the log while logging is set up on the file at `path`: the path
names a file that can be opened, the logger appends to that file, and the file
starts with `c0`. -/
def LogReady (path c0 : String) (e : Env) : Prop :=
  e.fs.openErr path = none ∧
  ∃ f, e.logOutput = .file f ∧ e.fs.names path = some f.ino ∧
    f.flags = [OpenFlag.O_APPEND, OpenFlag.O_CREATE, OpenFlag.O_WRONLY] ∧
    ∃ t, e.fs.data f.ino = c0 ++ t

/-! ## main (main.go 70-96) -/

/-- The steps of startup that reach outside `main`. -/
inductive Step where
  | loadConfig
  | setupLogging
  | FileServer
  | Handle
  | ListenAndServe
  deriving DecidableEq, Repr

/-- The process-wide state of the program: the global `config`, the handlers
registered with `http.Handle`, by pattern, and a record of the calls `main` has
made, each with its argument, in order (kept so that a step made twice shows). -/
structure Proc where
  config : Configuration
  mux : List (String × Handler)
  calls : List (Step × String)

/-- The state of a process that has just started. -/
def Proc.init : Proc :=
  { config := Configuration.zero, mux := [], calls := [] }

/-- How `main` ends: it returns, it is left serving on an address
(`http.ListenAndServe` does not return), or `log.Fatalf` ends the process. -/
inductive MainExit where
  | returned
  | serving (addr : String)
  | fatal
  deriving DecidableEq, Repr

/-- The program's entry point (main.go 70-96), run in a process that has just
started. Every call of a startup step is recorded in `calls` where it is made. -/
def main (lib : Lib) (e : Env) : MainExit × Proc × Env :=
  let calls := [(Step.loadConfig, "configuration.ini")]
  match loadConfig lib.Load "configuration.ini" Proc.init.config with
  | (some err, config) =>
    (.returned, { config := config, mux := Proc.init.mux, calls := calls },
      fmtPrintf ("Error loading config: " ++ err ++ "\n") e)
  | (none, config) =>
    let calls := calls ++ [(Step.setupLogging, config.LogFolder)]
    match setupLogging lib config.LogFolder e with
    | (some err, e) =>
      (.returned, { config := config, mux := Proc.init.mux, calls := calls },
        fmtPrintf ("Error setting up logging: " ++ err ++ "\n") e)
    | (none, e) =>
      let e := logPrintf lib "main.go:84"
        ("Starting " ++ config.ServerName ++ " on port " ++ config.Port) e
      let calls := calls ++ [(Step.FileServer, config.HTMLDir)]
      let fileServer := lib.FileServer config.HTMLDir
      let calls := calls ++ [(Step.Handle, "/")]
      let mux := Proc.init.mux ++ [("/", loggingMiddleware lib fileServer)]
      let calls := calls ++ [(Step.ListenAndServe, ":" ++ config.Port)]
      match lib.ListenAndServe (":" ++ config.Port) with
      | none => (.serving (":" ++ config.Port), { config := config, mux := mux, calls := calls }, e)
      | some err =>
        (.fatal, { config := config, mux := mux, calls := calls },
          logPrintf lib "main.go:94" ("Error starting server: " ++ err) e)

/-- The configuration `main` works with: the global `config` after its call of
`loadConfig` (main.go 72). -/
def loadedConfig (lib : Lib) : Configuration :=
  (loadConfig lib.Load "configuration.ini" Proc.init.config).2

/-- The same library reading another configuration: `ini.Load` is `Load`. -/
def Lib.withLoad (lib : Lib) (Load : IniLoad) : Lib :=
  { lib with Load := Load }

/-- The loader that finds the parsed file `f` at every path. -/
def fileLoad (f : ini.File) : IniLoad :=
  fun _ => .ok f

/-! ## Concrete inputs -/

/-- A configuration file with all five keys. -/
def demoFile : ini.File :=
  { sections :=
      [ { name := "server"
          keys :=
            [ { name := "name", value := "GoHTTP" }
            , { name := "port", value := "8080" }
            , { name := "log_folder", value := "logs" }
            , { name := "log_level", value := "info" } ] }
      , { name := "paths", keys := [ { name := "html_dir", value := "./public" } ] } ] }

/-- A configuration file without section paths and without key port. -/
def partFile : ini.File :=
  { sections :=
      [ { name := "server"
          keys :=
            [ { name := "name", value := "GoHTTP" }
            , { name := "log_folder", value := "logs" }
            , { name := "log_level", value := "debug" } ] } ] }

/-- A configuration file with all five keys, in which the value of name is a
reference to the key port. -/
def refFile : ini.File :=
  { sections :=
      [ { name := "server"
          keys :=
            [ { name := "name", value := "%(port)s" }
            , { name := "port", value := "8080" }
            , { name := "log_folder", value := "logs" }
            , { name := "log_level", value := "info" } ] }
      , { name := "paths", keys := [ { name := "html_dir", value := "./public" } ] } ] }

/-- A configuration file without section paths and without key port, in which
the value of name is a reference to the key log_level. -/
def partRefFile : ini.File :=
  { sections :=
      [ { name := "server"
          keys :=
            [ { name := "name", value := "%(log_level)s" }
            , { name := "log_folder", value := "logs" }
            , { name := "log_level", value := "debug" } ] } ] }

/-- A configuration file with all five keys, in which the value of name is a
reference to the key log_level. -/
def levelRefFile : ini.File :=
  { sections :=
      [ { name := "server"
          keys :=
            [ { name := "name", value := "%(log_level)s" }
            , { name := "port", value := "8080" }
            , { name := "log_folder", value := "logs" }
            , { name := "log_level", value := "info" } ] }
      , { name := "paths", keys := [ { name := "html_dir", value := "./public" } ] } ] }

/-- A loader that finds `demoFile` at configuration.ini and nothing elsewhere. -/
def demoLoad : IniLoad :=
  fun path =>
    if path = "configuration.ini" then .ok demoFile
    else .error ("open " ++ path ++ ": no such file or directory")

/-- A loader that finds `partFile` everywhere. -/
def partLoad : IniLoad :=
  fun _ => .ok partFile

/-- A file system holding one file, the log of an earlier run. -/
def demoFS : FS :=
  { names := fun path => if path = "logs/server.log" then some 0 else none
    data := fun i => if i = 0 then "earlier line\n" else ""
    next := 1
    openErr := fun _ => none }

/-- A process environment at start: nothing written yet, the logger on standard
error with the standard flags. -/
def demoEnv : Env :=
  { fs := demoFS, stdout := "", stderr := "", logOutput := .stderr,
    logFlags := LstdFlags, now := 0 }

/-- A handler that answers 404 to everything. -/
def notFound : Handler :=
  fun w _ e => (.returned, { w with status := some 404, body := "404 page not found\n" }, e)

/-- A handler that answers with the content of the log file. -/
def serveLog : Handler :=
  fun w _ e =>
    (.returned,
      { w with status := some 200, body := (e.fs.content "logs/server.log").getD "" }, e)

/-- A library: paths joined with a slash, the source location as log header. -/
def demoLib : Lib :=
  { Load := demoLoad
    Join := fun a b => a ++ "/" ++ b
    formatHeader := fun _ _ site => site ++ ": "
    durationString := fun d => toString d ++ "ns"
    FileServer := fun _ => notFound
    ListenAndServe := fun _ => none }

/-- A request for a file that is not there. -/
def demoRequest : Request :=
  { Method := "GET", URLPath := "/missing.txt", Header := [], Body := "" }

/-- A response writer nothing has been written to. -/
def emptyResponse : ResponseWriter :=
  { status := none, header := [], body := "" }

/-! ## Lookup lemmas -/

theorem find_map_of_preserved {α : Type} (p : α → Bool) (g : α → α)
    (hp : ∀ x, p (g x) = p x) (l : List α) :
    (l.map g).find? p = (l.find? p).map g := by
  induction l with
  | nil => rfl
  | cons a l ih =>
    simp only [List.map_cons, List.find?_cons, hp a]
    cases p a
    · exact ih
    · rfl

theorem ini.find_section_of_mem (l : List ini.SectionData) (s : ini.SectionData)
    (hnd : (l.map (fun s => s.name)).Nodup) (hs : s ∈ l) :
    l.find? (fun t => t.name == s.name) = some s := by
  induction l with
  | nil => cases hs
  | cons a l ih =>
    rw [List.map_cons, List.nodup_cons] at hnd
    rcases List.mem_cons.mp hs with h | h
    · subst h
      simp
    · have hne : a.name ≠ s.name := by
        intro heq
        exact hnd.1 (heq ▸ List.mem_map_of_mem (fun s => s.name) h)
      rw [List.find?_cons]
      have : (a.name == s.name) = false := by simpa using hne
      rw [this]
      exact ih hnd.2 h

theorem ini.find_key_of_mem (l : List ini.KeyData) (k : ini.KeyData)
    (hnd : (l.map (fun k => k.name)).Nodup) (hk : k ∈ l) :
    l.find? (fun t => t.name == k.name) = some k := by
  induction l with
  | nil => cases hk
  | cons a l ih =>
    rw [List.map_cons, List.nodup_cons] at hnd
    rcases List.mem_cons.mp hk with h | h
    · subst h
      simp
    · have hne : a.name ≠ k.name := by
        intro heq
        exact hnd.1 (heq ▸ List.mem_map_of_mem (fun k => k.name) h)
      rw [List.find?_cons]
      have : (a.name == k.name) = false := by simpa using hne
      rw [this]
      exact ih hnd.2 h

/-- In a well-formed file, the value stored for a written key is the written
value. -/
theorem ini.raw_of_written (f : ini.File) (sec key v : String)
    (hwf : f.WellFormed) (h : f.Written sec key v) :
    f.raw sec key = v := by
  obtain ⟨s, hs, hsn, k, hk, hkn, hkv⟩ := h
  subst hsn hkn hkv
  simp [ini.File.raw, ini.File.GetKey,
    ini.find_section_of_mem f.sections s hwf.1 hs,
    ini.find_key_of_mem s.keys k (hwf.2 s hs) hk]

/-- The file stores nothing for a key it does not hold. -/
theorem ini.GetKey_of_absent (f : ini.File) (sec key : String)
    (h : ¬ f.HasKey sec key) :
    f.GetKey sec key = none := by
  unfold ini.File.GetKey
  cases hfs : f.sections.find? (fun s => s.name == sec) with
  | none => rfl
  | some s =>
    have hs : s ∈ f.sections := List.mem_of_find?_eq_some hfs
    have hsn : s.name = sec := by
      have := List.find?_some hfs
      simpa using this
    simp only []
    cases hfk : s.keys.find? (fun k => k.name == key) with
    | none => rfl
    | some k =>
      exfalso
      have hk : k ∈ s.keys := List.mem_of_find?_eq_some hfk
      have hkn : k.name = key := by
        have := List.find?_some hfk
        simpa using this
      exact h ⟨s, hs, hsn, k, hk, hkn⟩

theorem ini.raw_of_absent (f : ini.File) (sec key : String)
    (h : ¬ f.HasKey sec key) :
    f.raw sec key = "" := by
  simp [ini.File.raw, ini.GetKey_of_absent f sec key h]

/-- Asking for a section, which creates it when absent, changes no stored key. -/
theorem ini.GetKey_Section (f : ini.File) (name sec key : String) :
    (f.Section name).f.GetKey sec key = f.GetKey sec key := by
  unfold ini.File.Section
  generalize (if name = "" then ini.DefaultSection else name) = n
  by_cases hany : f.sections.any (fun s => s.name == n) = true
  · rw [if_pos hany]
  · rw [if_neg hany]
    simp only [ini.File.GetKey, List.find?_append]
    cases hfs : f.sections.find? (fun s => s.name == sec) with
    | some s => rfl
    | none =>
      simp only [Option.none_or, List.find?_cons, List.find?_nil]
      cases (n == sec) <;> rfl

theorem ini.name_Section (f : ini.File) (name : String) (h : name ≠ "") :
    (f.Section name).name = name := by
  unfold ini.File.Section
  rw [if_neg h]
  split <;> rfl

/-- Creating a key with the empty value changes no stored value. -/
theorem ini.raw_addKey (f : ini.File) (sec name sec2 key2 : String) :
    (f.addKey sec name).raw sec2 key2 = f.raw sec2 key2 := by
  simp only [ini.File.raw, ini.File.GetKey, ini.File.addKey]
  rw [@find_map_of_preserved ini.SectionData (fun s => s.name == sec2) _
    (fun s => by by_cases hs : s.name = sec <;> simp [hs])]
  cases hfs : f.sections.find? (fun s => s.name == sec2) with
  | none => rfl
  | some s =>
    simp only [Option.map_some']
    by_cases hs : s.name = sec
    · simp only [hs, if_true, List.find?_append]
      cases hfk : s.keys.find? (fun k => k.name == key2) with
      | some k => rfl
      | none =>
        simp only [Option.none_or, List.find?_cons, List.find?_nil]
        cases (name == key2) <;> rfl
    · simp only [hs, if_false]

/-- The file as a lookup leaves it. -/
theorem ini.raw_Key (f : ini.File) (sec key sec2 key2 : String) :
    ((f.Section sec).Key key).s.f.raw sec2 key2 = f.raw sec2 key2 := by
  have hsec : ∀ s k, (f.Section sec).f.raw s k = f.raw s k := by
    intro s k
    simp [ini.File.raw, ini.GetKey_Section]
  unfold ini.Section.Key
  split
  · exact hsec sec2 key2
  · simp only [ini.raw_addKey]
    exact hsec sec2 key2

theorem ini.name_Key (f : ini.File) (sec key : String) (h : sec ≠ "") :
    ((f.Section sec).Key key).s.name = sec ∧ ((f.Section sec).Key key).name = key := by
  unfold ini.Section.Key
  split <;> simp [ini.name_Section f sec h]

/-- A value without a reference is returned as it is stored. -/
theorem ini.transformValue_noRef (k : ini.Key) (val : String)
    (h : ini.hasRef val = false) : k.transformValue val = val := by
  unfold ini.Key.transformValue
  split
  · have hf : ini.findVar val.data = none := by
      simpa [ini.hasRef] using h
    simp [ini.transformLoop, hf]
  · rfl

/-- A lookup whose stored value holds no reference yields the stored value. -/
theorem ini.String_noRef (f : ini.File) (sec key : String) (hsec : sec ≠ "")
    (h : ini.hasRef (f.raw sec key) = false) :
    ((f.Section sec).Key key).String = f.raw sec key := by
  have hv : ((f.Section sec).Key key).value = f.raw sec key := by
    unfold ini.Key.value
    rw [(ini.name_Key f sec key hsec).1, (ini.name_Key f sec key hsec).2]
    exact ini.raw_Key f sec key sec key
  unfold ini.Key.String
  rw [hv]
  exact ini.transformValue_noRef _ _ h

/-- The empty string holds no reference. -/
theorem ini.hasRef_empty : ini.hasRef "" = false := by
  decide

/-- The result of `loadConfig` on a file all of whose values for the five keys
are without references: every field is the stored value. -/
theorem loadConfig_noRef (Load : IniLoad) (filePath : String) (config : Configuration)
    (f : ini.File) (hload : Load filePath = .ok f)
    (hname : ini.hasRef (f.raw "server" "name") = false)
    (hport : ini.hasRef (f.raw "server" "port") = false)
    (hfolder : ini.hasRef (f.raw "server" "log_folder") = false)
    (hlevel : ini.hasRef (f.raw "server" "log_level") = false)
    (hhtml : ini.hasRef (f.raw "paths" "html_dir") = false) :
    loadConfig Load filePath config =
      (none, { ServerName := f.raw "server" "name", Port := f.raw "server" "port",
               LogFolder := f.raw "server" "log_folder",
               LogLevel := f.raw "server" "log_level",
               HTMLDir := f.raw "paths" "html_dir" }) := by
  simp only [loadConfig, hload]
  have hs : "server" ≠ "" := by decide
  have hp : "paths" ≠ "" := by decide
  have r1 := ini.raw_Key f "server" "name"
  have r2 := ini.raw_Key ((f.Section "server").Key "name").s.f "server" "port"
  have r3 := ini.raw_Key
    ((((f.Section "server").Key "name").s.f.Section "server").Key "port").s.f
    "server" "log_folder"
  have r4 := ini.raw_Key
    ((((((f.Section "server").Key "name").s.f.Section "server").Key "port").s.f.Section
      "server").Key "log_folder").s.f
    "server" "log_level"
  rw [ini.String_noRef f "server" "name" hs hname,
    ini.String_noRef _ "server" "port" hs (by rw [r1]; exact hport),
    ini.String_noRef _ "server" "log_folder" hs (by rw [r2, r1]; exact hfolder),
    ini.String_noRef _ "server" "log_level" hs (by rw [r3, r2, r1]; exact hlevel),
    ini.String_noRef _ "paths" "html_dir" hp (by rw [r4, r3, r2, r1]; exact hhtml),
    r1, r2, r1, r3, r2, r1, r4, r3, r2, r1]

/-! ## loadConfig: the claims -/

/-- C1 as stated fails: in `refFile`, a well-formed file with all five keys, the
value written for name is "%(port)s", and loadConfig returns nil with
ServerName "8080": the reference has been replaced by the value of port. -/
theorem loadConfig_all_keys_counterexample :
    refFile.WellFormed ∧
    refFile.Written "server" "name" "%(port)s" ∧
    refFile.Written "server" "port" "8080" ∧
    refFile.Written "server" "log_folder" "logs" ∧
    refFile.Written "server" "log_level" "info" ∧
    refFile.Written "paths" "html_dir" "./public" ∧
    loadConfig (fun _ => .ok refFile) "configuration.ini" Configuration.zero =
      (none, { ServerName := "8080", Port := "8080", LogFolder := "logs",
               LogLevel := "info", HTMLDir := "./public" }) ∧
    (loadConfig (fun _ => .ok refFile) "configuration.ini" Configuration.zero).2.ServerName ≠
      "%(port)s" := by
  refine ⟨?_, ?_, ?_, ?_, ?_, ?_, ?_, ?_⟩
  · simp [ini.File.WellFormed, refFile]
  · simp [ini.File.Written, refFile]
  · simp [ini.File.Written, refFile]
  · simp [ini.File.Written, refFile]
  · simp [ini.File.Written, refFile]
  · simp [ini.File.Written, refFile]
  · decide
  · decide

/-- C1, amended: for a well-formed configuration file in which section server
has keys name, port, log_folder, log_level and section paths has key html_dir,
and in which none of the five values holds a reference of the form %(name)s,
loadConfig returns nil and the five fields of config are exactly the values
written for those keys. -/
theorem loadConfig_all_keys (Load : IniLoad) (filePath : String) (config : Configuration)
    (f : ini.File) (name port logFolder logLevel htmlDir : String)
    (hload : Load filePath = .ok f) (hwf : f.WellFormed)
    (hname : f.Written "server" "name" name)
    (hport : f.Written "server" "port" port)
    (hfolder : f.Written "server" "log_folder" logFolder)
    (hlevel : f.Written "server" "log_level" logLevel)
    (hhtml : f.Written "paths" "html_dir" htmlDir)
    (rname : ini.hasRef name = false) (rport : ini.hasRef port = false)
    (rfolder : ini.hasRef logFolder = false) (rlevel : ini.hasRef logLevel = false)
    (rhtml : ini.hasRef htmlDir = false) :
    loadConfig Load filePath config =
      (none, { ServerName := name, Port := port, LogFolder := logFolder,
               LogLevel := logLevel, HTMLDir := htmlDir }) := by
  have e1 := ini.raw_of_written f _ _ _ hwf hname
  have e2 := ini.raw_of_written f _ _ _ hwf hport
  have e3 := ini.raw_of_written f _ _ _ hwf hfolder
  have e4 := ini.raw_of_written f _ _ _ hwf hlevel
  have e5 := ini.raw_of_written f _ _ _ hwf hhtml
  rw [loadConfig_noRef Load filePath config f hload (by rw [e1]; exact rname)
    (by rw [e2]; exact rport) (by rw [e3]; exact rfolder) (by rw [e4]; exact rlevel)
    (by rw [e5]; exact rhtml), e1, e2, e3, e4, e5]

/-- Witness of C1 at `demoFile`. -/
theorem loadConfig_all_keys_witness :
    loadConfig demoLoad "configuration.ini" Configuration.zero =
      (none, { ServerName := "GoHTTP", Port := "8080", LogFolder := "logs",
               LogLevel := "info", HTMLDir := "./public" }) :=
  loadConfig_all_keys demoLoad "configuration.ini" Configuration.zero demoFile
    "GoHTTP" "8080" "logs" "info" "./public" rfl
    (by simp [ini.File.WellFormed, demoFile])
    (by simp [ini.File.Written, demoFile])
    (by simp [ini.File.Written, demoFile])
    (by simp [ini.File.Written, demoFile])
    (by simp [ini.File.Written, demoFile])
    (by simp [ini.File.Written, demoFile])
    (by decide) (by decide) (by decide) (by decide) (by decide)

/-- C2 as stated fails: `partRefFile` lacks section paths and key port, its key
name is present with the value "%(log_level)s" written, and loadConfig returns
nil with ServerName "debug", not the value written. -/
theorem loadConfig_missing_keys_counterexample :
    partRefFile.WellFormed ∧
    (∀ s ∈ partRefFile.sections, s.name ≠ "paths") ∧
    ¬ partRefFile.HasKey "server" "port" ∧
    partRefFile.Written "server" "name" "%(log_level)s" ∧
    (loadConfig (fun _ => .ok partRefFile) "configuration.ini" Configuration.zero).1 = none ∧
    (loadConfig (fun _ => .ok partRefFile) "configuration.ini" Configuration.zero).2.ServerName =
      "debug" ∧
    (loadConfig (fun _ => .ok partRefFile) "configuration.ini" Configuration.zero).2.ServerName ≠
      "%(log_level)s" := by
  refine ⟨?_, ?_, ?_, ?_, ?_, ?_, ?_⟩
  · simp [ini.File.WellFormed, partRefFile]
  · simp [partRefFile]
  · simp [ini.File.HasKey, partRefFile]
  · simp [ini.File.Written, partRefFile]
  · decide
  · decide
  · decide

/-- The field a lookup fills when the key is absent or its value is without a
reference: the empty string, respectively the written value. -/
theorem ini.String_cases (f0 f : ini.File) (sec key : String) (hsec : sec ≠ "")
    (hraw : ∀ s k, f.raw s k = f0.raw s k) :
    (¬ f0.HasKey sec key → ((f.Section sec).Key key).String = "") ∧
    (f0.WellFormed → ∀ v, f0.Written sec key v → ini.hasRef v = false →
      ((f.Section sec).Key key).String = v) := by
  constructor
  · intro h
    have h0 : f.raw sec key = "" := by rw [hraw, ini.raw_of_absent f0 sec key h]
    rw [ini.String_noRef f sec key hsec (by rw [h0]; exact ini.hasRef_empty), h0]
  · intro hwf v hv hr
    have h0 : f.raw sec key = v := by rw [hraw, ini.raw_of_written f0 sec key v hwf hv]
    rw [ini.String_noRef f sec key hsec (by rw [h0]; exact hr), h0]

/-- C2, amended: for every parsed configuration file, whatever sections and keys
it lacks, loadConfig returns nil; a field whose key (or whole section) is absent
is the empty string, and a field whose key is written in a well-formed file with
a value that holds no reference of the form %(name)s is the written value. -/
theorem loadConfig_missing_keys (Load : IniLoad) (filePath : String) (config : Configuration)
    (f : ini.File) (hload : Load filePath = .ok f) :
    (loadConfig Load filePath config).1 = none ∧
    (¬ f.HasKey "server" "name" → (loadConfig Load filePath config).2.ServerName = "") ∧
    (¬ f.HasKey "server" "port" → (loadConfig Load filePath config).2.Port = "") ∧
    (¬ f.HasKey "server" "log_folder" → (loadConfig Load filePath config).2.LogFolder = "") ∧
    (¬ f.HasKey "server" "log_level" → (loadConfig Load filePath config).2.LogLevel = "") ∧
    (¬ f.HasKey "paths" "html_dir" → (loadConfig Load filePath config).2.HTMLDir = "") ∧
    ((∀ s ∈ f.sections, s.name ≠ "server") →
      (loadConfig Load filePath config).2.ServerName = "" ∧
      (loadConfig Load filePath config).2.Port = "" ∧
      (loadConfig Load filePath config).2.LogFolder = "" ∧
      (loadConfig Load filePath config).2.LogLevel = "") ∧
    ((∀ s ∈ f.sections, s.name ≠ "paths") →
      (loadConfig Load filePath config).2.HTMLDir = "") ∧
    (f.WellFormed →
      (∀ v, f.Written "server" "name" v → ini.hasRef v = false →
        (loadConfig Load filePath config).2.ServerName = v) ∧
      (∀ v, f.Written "server" "port" v → ini.hasRef v = false →
        (loadConfig Load filePath config).2.Port = v) ∧
      (∀ v, f.Written "server" "log_folder" v → ini.hasRef v = false →
        (loadConfig Load filePath config).2.LogFolder = v) ∧
      (∀ v, f.Written "server" "log_level" v → ini.hasRef v = false →
        (loadConfig Load filePath config).2.LogLevel = v) ∧
      (∀ v, f.Written "paths" "html_dir" v → ini.hasRef v = false →
        (loadConfig Load filePath config).2.HTMLDir = v)) := by
  have nosec : ∀ sec key, (∀ s ∈ f.sections, s.name ≠ sec) → ¬ f.HasKey sec key := by
    rintro sec key h ⟨s, hs, hsn, _⟩
    exact h s hs hsn
  have hs : "server" ≠ "" := by decide
  have hp : "paths" ≠ "" := by decide
  have r0 : ∀ s k, f.raw s k = f.raw s k := fun _ _ => rfl
  have r1 : ∀ s k, ((f.Section "server").Key "name").s.f.raw s k = f.raw s k :=
    fun s k => ini.raw_Key f "server" "name" s k
  have r2 : ∀ s k,
      ((((f.Section "server").Key "name").s.f.Section "server").Key "port").s.f.raw s k =
        f.raw s k :=
    fun s k => by rw [ini.raw_Key, r1]
  have r3 : ∀ s k,
      ((((((f.Section "server").Key "name").s.f.Section "server").Key "port").s.f.Section
        "server").Key "log_folder").s.f.raw s k = f.raw s k :=
    fun s k => by rw [ini.raw_Key, r2]
  have r4 : ∀ s k,
      ((((((((f.Section "server").Key "name").s.f.Section "server").Key "port").s.f.Section
        "server").Key "log_folder").s.f.Section "server").Key "log_level").s.f.raw s k =
        f.raw s k :=
    fun s k => by rw [ini.raw_Key, r3]
  have c1 := ini.String_cases f f "server" "name" hs r0
  have c2 := ini.String_cases f _ "server" "port" hs r1
  have c3 := ini.String_cases f _ "server" "log_folder" hs r2
  have c4 := ini.String_cases f _ "server" "log_level" hs r3
  have c5 := ini.String_cases f _ "paths" "html_dir" hp r4
  simp only [loadConfig, hload]
  refine ⟨trivial, c1.1, c2.1, c3.1, c4.1, c5.1, ?_, ?_, ?_⟩
  · intro h
    exact ⟨c1.1 (nosec _ _ h), c2.1 (nosec _ _ h), c3.1 (nosec _ _ h), c4.1 (nosec _ _ h)⟩
  · intro h
    exact c5.1 (nosec _ _ h)
  · intro hwf
    exact ⟨c1.2 hwf, c2.2 hwf, c3.2 hwf, c4.2 hwf, c5.2 hwf⟩

/-- Witness of C2 at `partFile`, which has no section paths and no key port. -/
theorem loadConfig_missing_keys_witness :
    (loadConfig partLoad "configuration.ini" Configuration.zero).1 = none ∧
    (loadConfig partLoad "configuration.ini" Configuration.zero).2.Port = "" ∧
    (loadConfig partLoad "configuration.ini" Configuration.zero).2.HTMLDir = "" ∧
    (loadConfig partLoad "configuration.ini" Configuration.zero).2.ServerName = "GoHTTP" := by
  have h := loadConfig_missing_keys partLoad "configuration.ini" Configuration.zero partFile rfl
  have hpaths : ∀ s ∈ partFile.sections, s.name ≠ "paths" := by
    simp [partFile]
  have hport : ¬ partFile.HasKey "server" "port" := by
    simp [ini.File.HasKey, partFile]
  have hwf : partFile.WellFormed := by
    simp [ini.File.WellFormed, partFile]
  have hname : partFile.Written "server" "name" "GoHTTP" := by
    simp [ini.File.Written, partFile]
  exact ⟨h.1, h.2.2.1 hport, h.2.2.2.2.2.2.2.1 hpaths,
    (h.2.2.2.2.2.2.2.2 hwf).1 "GoHTTP" hname (by decide)⟩

/-- C3: loadConfig returns a non-nil error exactly when ini.Load fails; the
error is then the load error wrapped as "failed to read config file: <err>" (and
config is left as it was), and whenever ini.Load succeeds the result is nil. -/
theorem loadConfig_error_iff (Load : IniLoad) (filePath : String) (config : Configuration) :
    ((loadConfig Load filePath config).1 ≠ none ↔ ∃ err, Load filePath = .error err) ∧
    (∀ err, Load filePath = .error err →
      loadConfig Load filePath config = (some ("failed to read config file: " ++ err), config)) ∧
    (∀ f, Load filePath = .ok f → (loadConfig Load filePath config).1 = none) := by
  refine ⟨?_, ?_, ?_⟩
  · cases h : Load filePath with
    | error err => simp [loadConfig, h]
    | ok f => simp [loadConfig, h]
  · intro err h
    simp [loadConfig, h]
  · intro f h
    simp [loadConfig, h]

/-! ## setupLogging: the claims -/

theorem splice_at_end (old b : String) : splice old old.length b = old ++ b := by
  apply String.ext
  have hdrop : List.drop (old.data.length + b.data.length) old.data = [] :=
    List.drop_eq_nil_of_le (Nat.le_add_right _ _)
  simp only [splice, String.length, List.take_length, Nat.sub_self, List.replicate_zero,
    List.append_nil, hdrop, String.data_append]

/-- The flags `setupLogging` opens the log with. -/
theorem logFlags_mem :
    OpenFlag.O_APPEND ∈ [OpenFlag.O_APPEND, OpenFlag.O_CREATE, OpenFlag.O_WRONLY] ∧
    OpenFlag.O_WRONLY ∈ [OpenFlag.O_APPEND, OpenFlag.O_CREATE, OpenFlag.O_WRONLY] ∧
    OpenFlag.O_CREATE ∈ [OpenFlag.O_APPEND, OpenFlag.O_CREATE, OpenFlag.O_WRONLY] ∧
    OpenFlag.O_EXCL ∉ [OpenFlag.O_APPEND, OpenFlag.O_CREATE, OpenFlag.O_WRONLY] ∧
    OpenFlag.O_TRUNC ∉ [OpenFlag.O_APPEND, OpenFlag.O_CREATE, OpenFlag.O_WRONLY] := by
  decide

/-- A write through a file opened for appending puts the text at the end of the
file and touches nothing else. -/
theorem FS.Write_append (fs : FS) (f : OSFile) (b : String)
    (ha : OpenFlag.O_APPEND ∈ f.flags)
    (hw : OpenFlag.O_WRONLY ∈ f.flags ∨ OpenFlag.O_RDWR ∈ f.flags) :
    (fs.Write f b).1.data f.ino = fs.data f.ino ++ b ∧
    (fs.Write f b).1.names = fs.names ∧
    (fs.Write f b).1.openErr = fs.openErr ∧
    (fs.Write f b).2.ino = f.ino ∧
    (fs.Write f b).2.flags = f.flags := by
  simp [FS.Write, hw, ha, splice_at_end]

theorem LogReady.content {path c0 : String} {e : Env} (h : LogReady path c0 e) :
    ∃ t, e.fs.content path = some (c0 ++ t) := by
  obtain ⟨_, f, _, hn, _, t, ht⟩ := h
  exact ⟨t, by simp [FS.content, hn, ht]⟩

theorem LogReady.again {lib : Lib} {logFolder c0 : String} {e : Env}
    (h : LogReady (lib.Join logFolder "server.log") c0 e) :
    LogReady (lib.Join logFolder "server.log") c0 (setupLogging lib logFolder e).2 ∧
    (setupLogging lib logFolder e).1 = none ∧
    (setupLogging lib logFolder e).2.fs = e.fs := by
  obtain ⟨ho, f, hf, hn, hfl, t, ht⟩ := h
  have key : e.fs.OpenFile (lib.Join logFolder "server.log")
      [OpenFlag.O_APPEND, OpenFlag.O_CREATE, OpenFlag.O_WRONLY] 0o644 =
      .ok ({ ino := f.ino, flags := [OpenFlag.O_APPEND, OpenFlag.O_CREATE, OpenFlag.O_WRONLY],
             offset := 0 }, e.fs) := by
    simp [FS.OpenFile, ho, hn]
  have hs : setupLogging lib logFolder e =
      (none, { e with
        fs := e.fs,
        logOutput := .file ⟨f.ino, [OpenFlag.O_APPEND, OpenFlag.O_CREATE, OpenFlag.O_WRONLY], 0⟩,
        logFlags := LstdFlags ++ [LogFlag.Lshortfile] }) := by
    simp only [setupLogging, key]
  rw [hs]
  exact ⟨⟨ho, _, rfl, hn, rfl, t, ht⟩, rfl, rfl⟩

theorem LogReady.printf {lib : Lib} {path c0 : String} {e : Env} (site msg : String)
    (h : LogReady path c0 e) :
    LogReady path c0 (logPrintf lib site msg e) ∧
    ∀ c, e.fs.content path = some c →
      (logPrintf lib site msg e).fs.content path = some (c ++ logLine lib e site msg) := by
  obtain ⟨ho, f, hf, hn, hfl, t, ht⟩ := h
  have ha : OpenFlag.O_APPEND ∈ f.flags := by rw [hfl]; exact logFlags_mem.1
  have hw : OpenFlag.O_WRONLY ∈ f.flags ∨ OpenFlag.O_RDWR ∈ f.flags := by
    rw [hfl]; exact Or.inl logFlags_mem.2.1
  obtain ⟨hd, hnames, herr, hino, hflags⟩ :=
    FS.Write_append e.fs f (logLine lib e site msg) ha hw
  have hfs : (logPrintf lib site msg e).fs = (e.fs.Write f (logLine lib e site msg)).1 := by
    simp [logPrintf, hf]
  have hout : (logPrintf lib site msg e).logOutput =
      .file (e.fs.Write f (logLine lib e site msg)).2 := by
    simp [logPrintf, hf]
  refine ⟨⟨by rw [hfs, herr]; exact ho, _, hout, by rw [hfs, hnames, hino]; exact hn,
    by rw [hflags]; exact hfl, t ++ logLine lib e site msg, ?_⟩, ?_⟩
  · rw [hfs, hino, hd, ht, String.append_assoc]
  · intro c hc
    simp only [FS.content, hn, Option.map_some', Option.some.injEq] at hc
    simp only [FS.content, hfs, hnames, hn, Option.map_some', hd, hc]

theorem LogReady.runLog {lib : Lib} {logFolder c0 : String} (steps : List LogStep) :
    ∀ e : Env, LogReady (lib.Join logFolder "server.log") c0 e →
      LogReady (lib.Join logFolder "server.log") c0 (runLog lib logFolder steps e) := by
  induction steps with
  | nil => intro e h; exact h
  | cons s steps ih =>
    intro e h
    have hstep : LogReady (lib.Join logFolder "server.log") c0 (s.run lib logFolder e) := by
      cases s with
      | again => exact (LogReady.again h).1
      | printf site msg => exact (LogReady.printf site msg h).1
    exact ih _ hstep

/-- Opening the log succeeds wherever the system lets the path be opened, and
leaves the log ready with the content the file had (none when it was absent). -/
theorem setupLogging_ready (lib : Lib) (logFolder : String) (e : Env)
    (hopen : e.fs.openErr (lib.Join logFolder "server.log") = none) :
    (setupLogging lib logFolder e).1 = none ∧
    LogReady (lib.Join logFolder "server.log")
      ((e.fs.content (lib.Join logFolder "server.log")).getD "")
      (setupLogging lib logFolder e).2 ∧
    (setupLogging lib logFolder e).2.fs.content (lib.Join logFolder "server.log") =
      some ((e.fs.content (lib.Join logFolder "server.log")).getD "") := by
  cases hn : e.fs.names (lib.Join logFolder "server.log") with
  | none =>
    simp [setupLogging, FS.OpenFile, hopen, hn, FS.content, LogReady]
  | some i =>
    simp [setupLogging, FS.OpenFile, hopen, hn, FS.content, LogReady]
    exact ⟨"", (String.append_empty _).symm⟩

/-- C4: wherever the open succeeds, setupLogging returns nil and the file at
Join(logFolder, "server.log") then exists with exactly the content it had before
(empty when it was absent): it is created if absent and never truncated. Setting
logging up again with the same folder changes nothing, a log line is written
after the content already there, and after any sequence of further set-ups and
log lines the content from before the first call is still the start of the file. -/
theorem setupLogging_appends (lib : Lib) (logFolder : String) (e : Env)
    (hopen : e.fs.openErr (lib.Join logFolder "server.log") = none) :
    (setupLogging lib logFolder e).1 = none ∧
    (setupLogging lib logFolder e).2.fs.content (lib.Join logFolder "server.log") =
      some ((e.fs.content (lib.Join logFolder "server.log")).getD "") ∧
    setupLogging lib logFolder (setupLogging lib logFolder e).2 =
      (none, (setupLogging lib logFolder e).2) ∧
    (∀ site msg,
      (logPrintf lib site msg (setupLogging lib logFolder e).2).fs.content
          (lib.Join logFolder "server.log") =
        some ((e.fs.content (lib.Join logFolder "server.log")).getD "" ++
          logLine lib (setupLogging lib logFolder e).2 site msg)) ∧
    (∀ steps, ∃ t,
      (runLog lib logFolder steps (setupLogging lib logFolder e).2).fs.content
          (lib.Join logFolder "server.log") =
        some ((e.fs.content (lib.Join logFolder "server.log")).getD "" ++ t)) := by
  obtain ⟨hnil, hready, hcontent⟩ := setupLogging_ready lib logFolder e hopen
  refine ⟨hnil, hcontent, ?_, ?_, ?_⟩
  · cases hn : e.fs.names (lib.Join logFolder "server.log") with
    | none => simp [setupLogging, FS.OpenFile, hopen, hn]
    | some i => simp [setupLogging, FS.OpenFile, hopen, hn]
  · intro site msg
    exact (LogReady.printf site msg hready).2 _ hcontent
  · intro steps
    exact (LogReady.runLog steps _ hready).content

/-- Witness of C4: the log of an earlier run is still there after set-up. -/
theorem setupLogging_appends_witness :
    (setupLogging demoLib "logs" demoEnv).1 = none ∧
    (setupLogging demoLib "logs" demoEnv).2.fs.content "logs/server.log" =
      some "earlier line\n" ∧
    (logPrintf demoLib "main.go:84" "Starting GoHTTP on port 8080"
        (setupLogging demoLib "logs" demoEnv).2).fs.content "logs/server.log" =
      some "earlier line\nmain.go:84: Starting GoHTTP on port 8080\n" := by
  have h := setupLogging_appends demoLib "logs" demoEnv rfl
  refine ⟨h.1, ?_, ?_⟩
  · have h2 := h.2.1
    simpa [demoLib, demoEnv, demoFS, FS.content] using h2
  · have h4 := h.2.2.2.1 "main.go:84" "Starting GoHTTP on port 8080"
    simpa [demoLib, demoEnv, demoFS, FS.content, logLine] using h4

/-! ## loggingMiddleware: the claims -/

/-- A log line goes to the end of what the logger's output holds, and to nothing
else the process writes to. -/
theorem logPrintf_sink (lib : Lib) (site msg : String) (e : Env) :
    (logPrintf lib site msg e).stdout = e.stdout ∧
    (logPrintf lib site msg e).now = e.now ∧
    (e.LogAppends →
      (logPrintf lib site msg e).logSink = e.logSink ++ logLine lib e site msg) := by
  unfold logPrintf Env.LogAppends Env.logSink
  cases h : e.logOutput with
  | stderr => simp
  | file f =>
    refine ⟨rfl, rfl, ?_⟩
    rintro ⟨ha, hw⟩
    simp [FS.Write, hw, ha, splice_at_end]

theorem afterStarted_same (lib : Lib) (r : Request) (e : Env) :
    e.SameButOutput (afterStarted lib r e) := by
  unfold afterStarted logPrintf fmtPrintf Env.SameButOutput
  cases h : e.logOutput with
  | stderr => simp
  | file f =>
    refine ⟨rfl, rfl, ?_, ?_, ?_, ?_, ?_, ?_⟩
    · simp only [FS.Write]; split <;> rfl
    · simp only [FS.Write]; split <;> rfl
    · simp only [FS.Write]; split <;> rfl
    · intro i hi
      have hne : i ≠ f.ino := fun heq => hi f rfl heq.symm
      simp only [FS.Write]
      split
      · simp [Function.update_noteq hne]
      · rfl
    · intro hc; cases hc
    · intro f2 hf2
      cases hf2
      refine ⟨_, rfl, ?_, ?_, rfl⟩
      · simp only [FS.Write]; split <;> rfl
      · simp only [FS.Write]; split <;> rfl

/-- The middleware unfolded: what it returns, by the way the one call of the
inner handler ends. -/
theorem loggingMiddleware_eq (lib : Lib) (next : Handler) (w : ResponseWriter)
    (r : Request) (e : Env) :
    (∀ w2 e2, next w r (afterStarted lib r e) = (.returned, w2, e2) →
      loggingMiddleware lib next w r e =
        (.returned, w2, logPrintf lib "main.go:52" (completedMsg lib (e2.now - e.now)) e2)) ∧
    (∀ w2 e2, next w r (afterStarted lib r e) = (.panicked, w2, e2) →
      loggingMiddleware lib next w r e = (.panicked, w2, e2)) := by
  constructor
  · intro w2 e2 h
    have h2 : next w r (logPrintf lib "main.go:48" ("Started " ++ r.Method ++ " " ++ r.URLPath)
        (fmtPrintf ("Started " ++ r.Method ++ " " ++ r.URLPath ++ "\n") e)) =
        (.returned, w2, e2) := h
    simp only [loggingMiddleware, h2]
    rfl
  · intro w2 e2 h
    have h2 : next w r (logPrintf lib "main.go:48" ("Started " ++ r.Method ++ " " ++ r.URLPath)
        (fmtPrintf ("Started " ++ r.Method ++ " " ++ r.URLPath ++ "\n") e)) =
        (.panicked, w2, e2) := h
    simp only [loggingMiddleware, h2]

/-- C5: the handler returned by loggingMiddleware first writes the record
"Started <METHOD> <PATH>" once to standard output and once to the logger, then
calls the inner handler in the world so reached, and only when the inner handler
has returned writes one record "Completed in <duration>" to the logger, the
duration being the clock then minus the clock at the start; it writes nothing
else, and when the inner handler panics no Completed record is written. -/
theorem loggingMiddleware_records (lib : Lib) (next : Handler) (w : ResponseWriter)
    (r : Request) (e : Env) :
    (afterStarted lib r e).stdout = e.stdout ++ ("Started " ++ r.Method ++ " " ++ r.URLPath ++ "\n") ∧
    (e.LogAppends →
      (afterStarted lib r e).logSink =
        e.logSink ++ logLine lib e "main.go:48" ("Started " ++ r.Method ++ " " ++ r.URLPath)) ∧
    (∀ w2 e2, next w r (afterStarted lib r e) = (.returned, w2, e2) →
      loggingMiddleware lib next w r e =
        (.returned, w2, logPrintf lib "main.go:52" (completedMsg lib (e2.now - e.now)) e2) ∧
      (logPrintf lib "main.go:52" (completedMsg lib (e2.now - e.now)) e2).stdout = e2.stdout ∧
      (e2.LogAppends →
        (logPrintf lib "main.go:52" (completedMsg lib (e2.now - e.now)) e2).logSink =
          e2.logSink ++ logLine lib e2 "main.go:52"
            ("Completed in " ++ lib.durationString (e2.now - e.now)))) ∧
    (∀ w2 e2, next w r (afterStarted lib r e) = (.panicked, w2, e2) →
      loggingMiddleware lib next w r e = (.panicked, w2, e2)) := by
  refine ⟨?_, ?_, ?_, ?_⟩
  · simp [afterStarted, startedMsg, (logPrintf_sink lib _ _ _).1, fmtPrintf, String.append_assoc]
  · intro ha
    have h := (logPrintf_sink lib "main.go:48" (startedMsg r)
      (fmtPrintf (startedMsg r ++ "\n") e)).2.2 ha
    exact h
  · intro w2 e2 h
    exact ⟨(loggingMiddleware_eq lib next w r e).1 w2 e2 h, (logPrintf_sink lib _ _ e2).1,
      (logPrintf_sink lib _ _ e2).2.2⟩
  · exact (loggingMiddleware_eq lib next w r e).2

/-- C6 as stated fails: with the logger set up on logs/server.log, the handler
`serveLog`, which answers with the content of that file, produces the body
"earlier line" alone, and behind the middleware the body that also holds the
Started line the middleware has just logged. -/
theorem loggingMiddleware_frame_counterexample :
    (serveLog emptyResponse demoRequest (setupLogging demoLib "logs" demoEnv).2).2.1.body =
      "earlier line\n" ∧
    (loggingMiddleware demoLib serveLog emptyResponse demoRequest
        (setupLogging demoLib "logs" demoEnv).2).2.1.body =
      "earlier line\nmain.go:48: Started GET /missing.txt\n" ∧
    (loggingMiddleware demoLib serveLog emptyResponse demoRequest
        (setupLogging demoLib "logs" demoEnv).2).2.1 ≠
      (serveLog emptyResponse demoRequest (setupLogging demoLib "logs" demoEnv).2).2.1 := by
  refine ⟨by decide, by decide, by decide⟩

theorem Env.SameButOutput.clock {e e2 : Env} (h : e.SameButOutput e2) :
    e.SameButOutputClock e2 :=
  h.2

/-- C6, amended: the handler returned by loggingMiddleware calls the inner
handler exactly once, with the response writer and the request it was given, in
the world reached by writing the Started record; what it returns is the response
and the world that one call left, the world with the Completed record added when
the call returned: the middleware writes nothing to the response. The world the
inner handler is called in differs from the caller's only in the output written
(console and log), so the response is the one the inner handler alone would
produce whenever the inner handler's response does not depend on that output or
on the clock. -/
theorem loggingMiddleware_frame (lib : Lib) (next : Handler) (w : ResponseWriter)
    (r : Request) (e : Env) :
    (∀ w2 e2, next w r (afterStarted lib r e) = (.returned, w2, e2) →
      loggingMiddleware lib next w r e =
        (.returned, w2,
          logPrintf lib "main.go:52" ("Completed in " ++ lib.durationString (e2.now - e.now))
            e2)) ∧
    (∀ w2 e2, next w r (afterStarted lib r e) = (.panicked, w2, e2) →
      loggingMiddleware lib next w r e = (.panicked, w2, e2)) ∧
    (loggingMiddleware lib next w r e).1 = (next w r (afterStarted lib r e)).1 ∧
    (loggingMiddleware lib next w r e).2.1 = (next w r (afterStarted lib r e)).2.1 ∧
    e.SameButOutput (afterStarted lib r e) ∧
    ((∀ e2, e.SameButOutputClock e2 → (next w r e2).2.1 = (next w r e).2.1) →
      (loggingMiddleware lib next w r e).2.1 = (next w r e).2.1) := by
  have h1 : (loggingMiddleware lib next w r e).1 = (next w r (afterStarted lib r e)).1 ∧
      (loggingMiddleware lib next w r e).2.1 = (next w r (afterStarted lib r e)).2.1 := by
    rcases hn : next w r (afterStarted lib r e) with ⟨x, w2, e2⟩
    cases x with
    | returned =>
      rw [(loggingMiddleware_eq lib next w r e).1 w2 e2 hn]
      exact ⟨rfl, rfl⟩
    | panicked =>
      rw [(loggingMiddleware_eq lib next w r e).2 w2 e2 hn]
      exact ⟨rfl, rfl⟩
  refine ⟨(loggingMiddleware_eq lib next w r e).1, (loggingMiddleware_eq lib next w r e).2,
    h1.1, h1.2, afterStarted_same lib r e, ?_⟩
  intro hind
  rw [h1.2]
  exact hind _ (afterStarted_same lib r e).clock

/-- Witness of C6: `notFound` does not read the world, and its response behind
the middleware is its response alone. -/
theorem loggingMiddleware_frame_witness :
    (loggingMiddleware demoLib notFound emptyResponse demoRequest demoEnv).2.1 =
      (notFound emptyResponse demoRequest demoEnv).2.1 :=
  (loggingMiddleware_frame demoLib notFound emptyResponse demoRequest demoEnv).2.2.2.2.2
    (fun _ _ => rfl)

/-! ## main: the claims -/

/-- A failed set-up leaves the world as it was. -/
theorem setupLogging_error_env (lib : Lib) (logFolder : String) (e : Env) (err : String)
    (h : (setupLogging lib logFolder e).1 = some err) :
    (setupLogging lib logFolder e).2 = e := by
  cases ho : e.fs.OpenFile (lib.Join logFolder "server.log")
      [OpenFlag.O_APPEND, OpenFlag.O_CREATE, OpenFlag.O_WRONLY] 0o644 with
  | error x => simp [setupLogging, ho]
  | ok p => simp [setupLogging, ho] at h

/-- C7: startup is a sequence without retries. If loadConfig fails, main has
called loadConfig once and nothing else, has written "Error loading config:
<err>" to standard output and nothing else to the world, and returns with no
handler registered. If setupLogging fails, main has called loadConfig once and
setupLogging once and nothing else, has written "Error setting up logging:
<err>" to standard output, and returns with no handler registered. Only when both
succeeded is the handler registered for "/" and ListenAndServe called, once, on
":" followed by the configured port; no step is called twice. -/
theorem main_pipeline (lib : Lib) (e : Env) :
    (∀ err, (loadConfig lib.Load "configuration.ini" Proc.init.config).1 = some err →
      main lib e =
        (.returned,
          { config := loadedConfig lib, mux := [],
            calls := [(Step.loadConfig, "configuration.ini")] },
          { e with stdout := e.stdout ++ ("Error loading config: " ++ err ++ "\n") })) ∧
    ((loadConfig lib.Load "configuration.ini" Proc.init.config).1 = none →
      (∀ err, (setupLogging lib (loadedConfig lib).LogFolder e).1 = some err →
        main lib e =
          (.returned,
            { config := loadedConfig lib, mux := [],
              calls := [(Step.loadConfig, "configuration.ini"),
                        (Step.setupLogging, (loadedConfig lib).LogFolder)] },
            { e with stdout := e.stdout ++ ("Error setting up logging: " ++ err ++ "\n") })) ∧
      ((setupLogging lib (loadedConfig lib).LogFolder e).1 = none →
        (main lib e).2.1 =
          { config := loadedConfig lib,
            mux := [("/", loggingMiddleware lib (lib.FileServer (loadedConfig lib).HTMLDir))],
            calls := [(Step.loadConfig, "configuration.ini"),
                      (Step.setupLogging, (loadedConfig lib).LogFolder),
                      (Step.FileServer, (loadedConfig lib).HTMLDir),
                      (Step.Handle, "/"),
                      (Step.ListenAndServe, ":" ++ (loadedConfig lib).Port)] } ∧
        (lib.ListenAndServe (":" ++ (loadedConfig lib).Port) = none →
          (main lib e).1 = .serving (":" ++ (loadedConfig lib).Port) ∧
          (main lib e).2.2 =
            logPrintf lib "main.go:84"
              ("Starting " ++ (loadedConfig lib).ServerName ++ " on port " ++
                (loadedConfig lib).Port)
              (setupLogging lib (loadedConfig lib).LogFolder e).2) ∧
        (∀ err, lib.ListenAndServe (":" ++ (loadedConfig lib).Port) = some err →
          (main lib e).1 = .fatal ∧
          (main lib e).2.2 =
            logPrintf lib "main.go:94" ("Error starting server: " ++ err)
              (logPrintf lib "main.go:84"
                ("Starting " ++ (loadedConfig lib).ServerName ++ " on port " ++
                  (loadedConfig lib).Port)
                (setupLogging lib (loadedConfig lib).LogFolder e).2)))) ∧
    (((main lib e).1 ≠ .returned ∨ (main lib e).2.1.mux ≠ [] ∨
        (∃ c ∈ (main lib e).2.1.calls, c.1 = Step.Handle ∨ c.1 = Step.ListenAndServe)) →
      (loadConfig lib.Load "configuration.ini" Proc.init.config).1 = none ∧
      (setupLogging lib (loadedConfig lib).LogFolder e).1 = none) ∧
    (∀ addr, (main lib e).1 = .serving addr → addr = ":" ++ (loadedConfig lib).Port) ∧
    ((main lib e).2.1.calls.map Prod.fst).Nodup := by
  unfold loadedConfig
  have hz : Proc.init.config = Configuration.zero := rfl
  rw [hz]
  rcases hl : loadConfig lib.Load "configuration.ini" Configuration.zero with ⟨lerr, config⟩
  cases lerr with
  | some lerr =>
    simp [main, hl, Proc.init, fmtPrintf]
  | none =>
    rcases hs : setupLogging lib config.LogFolder e with ⟨serr, e1⟩
    cases serr with
    | some serr =>
      have hfail : e1 = e := by
        have h2 : (setupLogging lib config.LogFolder e).2 = e1 := by rw [hs]
        have h1 : (setupLogging lib config.LogFolder e).1 = some serr := by rw [hs]
        rw [← h2]
        exact setupLogging_error_env lib _ e serr h1
      subst hfail
      simp [main, hl, hs, Proc.init, fmtPrintf]
    | none =>
      cases hsrv : lib.ListenAndServe (":" ++ config.Port) with
      | none => simp [main, hl, hs, hsrv, Proc.init]
      | some err => simp [main, hl, hs, hsrv, Proc.init]

/-! ## log_level -/

theorem ini.find_map_keys (keys : List ini.KeyData) (key v name : String) :
    (keys.map (fun k => if k.name = key then { k with value := v } else k)).find?
        (fun k => k.name == name) =
      (keys.find? (fun k => k.name == name)).map
        (fun k => if k.name = key then { k with value := v } else k) := by
  apply find_map_of_preserved
  intro k
  by_cases hk : k.name = key <;> simp [hk]

theorem ini.find_map_sections (l : List ini.SectionData) (sec key v name : String) :
    (l.map (fun s =>
        if s.name = sec then
          { s with keys := s.keys.map (fun k => if k.name = key then { k with value := v } else k) }
        else s)).find? (fun s => s.name == name) =
      (l.find? (fun s => s.name == name)).map (fun s =>
        if s.name = sec then
          { s with keys := s.keys.map (fun k => if k.name = key then { k with value := v } else k) }
        else s) := by
  apply find_map_of_preserved
  intro s
  by_cases hs : s.name = sec <;> simp [hs]

/-- Giving one key of one section a new value changes no other stored value. -/
theorem ini.raw_setValue (f : ini.File) (sec key v sec2 key2 : String)
    (h : ¬ (sec2 = sec ∧ key2 = key)) :
    (f.setValue sec key v).raw sec2 key2 = f.raw sec2 key2 := by
  simp only [ini.File.raw, ini.File.GetKey, ini.File.setValue]
  rw [ini.find_map_sections]
  cases hfs : f.sections.find? (fun s => s.name == sec2) with
  | none => rfl
  | some s =>
    have hsn : s.name = sec2 := by
      have := List.find?_some hfs
      simpa using this
    simp only [Option.map_some']
    by_cases hs : s.name = sec
    · have hkey : key2 ≠ key := fun hk => h ⟨hsn ▸ hs, hk⟩
      simp only [hs, if_true]
      rw [ini.find_map_keys]
      cases hfk : s.keys.find? (fun k => k.name == key2) with
      | none => rfl
      | some k =>
        have hkn : k.name = key2 := by
          have := List.find?_some hfk
          simpa using this
        have hne : k.name ≠ key := fun hk => hkey (hkn ▸ hk)
        simp [hne]
    · simp only [hs, if_false]

/-- The result of `loadConfig` on a file whose values for name, port, log_folder
and html_dir are without references: these four fields are the stored values. -/
theorem loadConfig_noRef4 (Load : IniLoad) (filePath : String) (config : Configuration)
    (f : ini.File) (hload : Load filePath = .ok f)
    (hname : ini.hasRef (f.raw "server" "name") = false)
    (hport : ini.hasRef (f.raw "server" "port") = false)
    (hfolder : ini.hasRef (f.raw "server" "log_folder") = false)
    (hhtml : ini.hasRef (f.raw "paths" "html_dir") = false) :
    ∃ x, loadConfig Load filePath config =
      (none, { ServerName := f.raw "server" "name", Port := f.raw "server" "port",
               LogFolder := f.raw "server" "log_folder", LogLevel := x,
               HTMLDir := f.raw "paths" "html_dir" }) := by
  simp only [loadConfig, hload]
  have hs : "server" ≠ "" := by decide
  have hp : "paths" ≠ "" := by decide
  have r1 := ini.raw_Key f "server" "name"
  have r2 := ini.raw_Key ((f.Section "server").Key "name").s.f "server" "port"
  have r3 := ini.raw_Key
    ((((f.Section "server").Key "name").s.f.Section "server").Key "port").s.f
    "server" "log_folder"
  have r4 := ini.raw_Key
    ((((((f.Section "server").Key "name").s.f.Section "server").Key "port").s.f.Section
      "server").Key "log_folder").s.f
    "server" "log_level"
  rw [ini.String_noRef f "server" "name" hs hname,
    ini.String_noRef _ "server" "port" hs (by rw [r1]; exact hport),
    ini.String_noRef _ "server" "log_folder" hs (by rw [r2, r1]; exact hfolder),
    ini.String_noRef _ "paths" "html_dir" hp (by rw [r4, r3, r2, r1]; exact hhtml),
    r1, r2, r1, r4, r3, r2, r1]
  exact ⟨_, rfl⟩

/-- What `main` does, by the result of `loadConfig`. -/
theorem main_of_loadConfig (lib : Lib) (L : IniLoad) (e : Env) :
    main (lib.withLoad L) e =
      match loadConfig L "configuration.ini" Configuration.zero with
      | (some err, config) =>
        (.returned,
          { config := config, mux := [], calls := [(Step.loadConfig, "configuration.ini")] },
          fmtPrintf ("Error loading config: " ++ err ++ "\n") e)
      | (none, config) =>
        match setupLogging lib config.LogFolder e with
        | (some err, e) =>
          (.returned,
            { config := config, mux := [],
              calls := [(Step.loadConfig, "configuration.ini"),
                        (Step.setupLogging, config.LogFolder)] },
            fmtPrintf ("Error setting up logging: " ++ err ++ "\n") e)
        | (none, e) =>
          match lib.ListenAndServe (":" ++ config.Port) with
          | none =>
            (.serving (":" ++ config.Port),
              { config := config,
                mux := [("/", loggingMiddleware lib (lib.FileServer config.HTMLDir))],
                calls := [(Step.loadConfig, "configuration.ini"),
                          (Step.setupLogging, config.LogFolder),
                          (Step.FileServer, config.HTMLDir), (Step.Handle, "/"),
                          (Step.ListenAndServe, ":" ++ config.Port)] },
              logPrintf lib "main.go:84"
                ("Starting " ++ config.ServerName ++ " on port " ++ config.Port) e)
          | some err =>
            (.fatal,
              { config := config,
                mux := [("/", loggingMiddleware lib (lib.FileServer config.HTMLDir))],
                calls := [(Step.loadConfig, "configuration.ini"),
                          (Step.setupLogging, config.LogFolder),
                          (Step.FileServer, config.HTMLDir), (Step.Handle, "/"),
                          (Step.ListenAndServe, ":" ++ config.Port)] },
              logPrintf lib "main.go:94" ("Error starting server: " ++ err)
                (logPrintf lib "main.go:84"
                  ("Starting " ++ config.ServerName ++ " on port " ++ config.Port) e)) :=
  rfl

/-- C10 as stated fails: `levelRefFile` and the same file with log_level set to
"debug" differ only in the value of log_level, and the two runs of main differ
in ServerName ("info" and "debug") and in the startup line written to the log. -/
theorem log_level_inert_counterexample :
    (main (demoLib.withLoad (fileLoad levelRefFile)) demoEnv).2.1.config.ServerName = "info" ∧
    (main (demoLib.withLoad (fileLoad (levelRefFile.setValue "server" "log_level" "debug")))
        demoEnv).2.1.config.ServerName = "debug" ∧
    (main (demoLib.withLoad (fileLoad levelRefFile)) demoEnv).2.2.fs.content
        "logs/server.log" =
      some "earlier line\nmain.go:84: Starting info on port 8080\n" ∧
    (main (demoLib.withLoad (fileLoad (levelRefFile.setValue "server" "log_level" "debug")))
        demoEnv).2.2.fs.content "logs/server.log" =
      some "earlier line\nmain.go:84: Starting debug on port 8080\n" := by
  refine ⟨by decide, by decide, by decide, by decide⟩

/-- C10, amended: log_level is inert as long as no other value refers to it. For
two configuration files that differ only in the value of log_level in section
server, and in which the values of name, port, log_folder and html_dir hold no
reference of the form %(name)s, loadConfig gives the same result and
configurations that differ only in the field LogLevel; and main, started in the
same world, makes the same calls, ends the same way (the same address served),
leaves the same world (the same log file, the same startup line, the same
console output) and registers the same handler: only the stored field LogLevel
differs. -/
theorem log_level_inert (lib : Lib) (f : ini.File) (v : String) (e : Env)
    (hname : ini.hasRef (f.raw "server" "name") = false)
    (hport : ini.hasRef (f.raw "server" "port") = false)
    (hfolder : ini.hasRef (f.raw "server" "log_folder") = false)
    (hhtml : ini.hasRef (f.raw "paths" "html_dir") = false) :
    (∀ path c,
      (loadConfig (fileLoad (f.setValue "server" "log_level" v)) path c).1 =
        (loadConfig (fileLoad f) path c).1 ∧
      (loadConfig (fileLoad (f.setValue "server" "log_level" v)) path c).2 =
        { (loadConfig (fileLoad f) path c).2 with
          LogLevel := (loadConfig (fileLoad (f.setValue "server" "log_level" v)) path c).2.LogLevel }) ∧
    (main (lib.withLoad (fileLoad (f.setValue "server" "log_level" v))) e).1 =
      (main (lib.withLoad (fileLoad f)) e).1 ∧
    (main (lib.withLoad (fileLoad (f.setValue "server" "log_level" v))) e).2.2 =
      (main (lib.withLoad (fileLoad f)) e).2.2 ∧
    (main (lib.withLoad (fileLoad (f.setValue "server" "log_level" v))) e).2.1.mux =
      (main (lib.withLoad (fileLoad f)) e).2.1.mux ∧
    (main (lib.withLoad (fileLoad (f.setValue "server" "log_level" v))) e).2.1.calls =
      (main (lib.withLoad (fileLoad f)) e).2.1.calls ∧
    (main (lib.withLoad (fileLoad (f.setValue "server" "log_level" v))) e).2.1.config =
      { (main (lib.withLoad (fileLoad f)) e).2.1.config with
        LogLevel :=
          (main (lib.withLoad (fileLoad (f.setValue "server" "log_level" v))) e).2.1.config.LogLevel } := by
  have s1 := ini.raw_setValue f "server" "log_level" v "server" "name" (by decide)
  have s2 := ini.raw_setValue f "server" "log_level" v "server" "port" (by decide)
  have s3 := ini.raw_setValue f "server" "log_level" v "server" "log_folder" (by decide)
  have s4 := ini.raw_setValue f "server" "log_level" v "paths" "html_dir" (by decide)
  have hboth : ∀ path c, ∃ x y,
      loadConfig (fileLoad f) path c =
        (none, { ServerName := f.raw "server" "name", Port := f.raw "server" "port",
                 LogFolder := f.raw "server" "log_folder", LogLevel := x,
                 HTMLDir := f.raw "paths" "html_dir" }) ∧
      loadConfig (fileLoad (f.setValue "server" "log_level" v)) path c =
        (none, { ServerName := f.raw "server" "name", Port := f.raw "server" "port",
                 LogFolder := f.raw "server" "log_folder", LogLevel := y,
                 HTMLDir := f.raw "paths" "html_dir" }) := by
    intro path c
    obtain ⟨x, hx⟩ := loadConfig_noRef4 (fileLoad f) path c f rfl hname hport hfolder hhtml
    obtain ⟨y, hy⟩ := loadConfig_noRef4 (fileLoad (f.setValue "server" "log_level" v)) path c
      (f.setValue "server" "log_level" v) rfl (by rw [s1]; exact hname)
      (by rw [s2]; exact hport) (by rw [s3]; exact hfolder) (by rw [s4]; exact hhtml)
    rw [s1, s2, s3, s4] at hy
    exact ⟨x, y, hx, hy⟩
  constructor
  · intro path c
    obtain ⟨x, y, hx, hy⟩ := hboth path c
    rw [hx, hy]
    exact ⟨rfl, rfl⟩
  · obtain ⟨x, y, hx, hy⟩ := hboth "configuration.ini" Configuration.zero
    rw [main_of_loadConfig, main_of_loadConfig, hx, hy]
    simp only []
    rcases setupLogging lib (f.raw "server" "log_folder") e with ⟨serr, e1⟩
    cases serr with
    | some serr => exact ⟨rfl, rfl, rfl, rfl, rfl⟩
    | none =>
      simp only []
      cases lib.ListenAndServe (":" ++ f.raw "server" "port") with
      | none => exact ⟨rfl, rfl, rfl, rfl, rfl⟩
      | some err => exact ⟨rfl, rfl, rfl, rfl, rfl⟩

/-- Witness of C10 at `demoFile`, with log_level set to "debug". -/
theorem log_level_inert_witness :
    (main (demoLib.withLoad (fileLoad (demoFile.setValue "server" "log_level" "debug")))
        demoEnv).2.2 =
      (main (demoLib.withLoad (fileLoad demoFile)) demoEnv).2.2 ∧
    (main (demoLib.withLoad (fileLoad (demoFile.setValue "server" "log_level" "debug")))
        demoEnv).1 =
      (main (demoLib.withLoad (fileLoad demoFile)) demoEnv).1 :=
  ⟨(log_level_inert demoLib demoFile "debug" demoEnv (by decide) (by decide) (by decide)
      (by decide)).2.2.1,
   (log_level_inert demoLib demoFile "debug" demoEnv (by decide) (by decide) (by decide)
      (by decide)).2.1⟩

/-! ## Further properties of set-up and startup -/

/-- Once logging is set up the logger appends to its output, as it does on
standard error before: the records of the middleware go to the end of the log. -/
theorem setupLogging_logAppends (lib : Lib) (logFolder : String) (e : Env)
    (hopen : e.fs.openErr (lib.Join logFolder "server.log") = none) :
    (setupLogging lib logFolder e).2.LogAppends := by
  obtain ⟨_, f, hf, _, hfl, _⟩ := (setupLogging_ready lib logFolder e hopen).2.1
  unfold Env.LogAppends
  rw [hf]
  simp [hfl]

/-- setupLogging fails exactly when the log file cannot be opened; the error is
the open error wrapped as "could not open log file: <err>", and the world,
the logger's output and flags included, is left as it was. -/
theorem setupLogging_error_iff (lib : Lib) (logFolder : String) (e : Env) :
    ((setupLogging lib logFolder e).1 ≠ none ↔
      ∃ err, e.fs.openErr (lib.Join logFolder "server.log") = some err) ∧
    (∀ err, e.fs.openErr (lib.Join logFolder "server.log") = some err →
      setupLogging lib logFolder e = (some ("could not open log file: " ++ err), e)) := by
  constructor
  · cases ho : e.fs.openErr (lib.Join logFolder "server.log") with
    | none => simp [(setupLogging_ready lib logFolder e ho).1]
    | some err => simp [setupLogging, FS.OpenFile, ho]
  · intro err ho
    simp [setupLogging, FS.OpenFile, ho]

/-- After a successful startup the log file holds what it held before followed
by the startup line "Starting <ServerName> on port <Port>", with the header the
flags set by setupLogging give it. -/
theorem main_startup_line (lib : Lib) (e : Env)
    (hload : (loadConfig lib.Load "configuration.ini" Configuration.zero).1 = none)
    (hopen : e.fs.openErr (lib.Join (loadedConfig lib).LogFolder "server.log") = none)
    (hsrv : lib.ListenAndServe (":" ++ (loadedConfig lib).Port) = none) :
    (main lib e).2.2.fs.content (lib.Join (loadedConfig lib).LogFolder "server.log") =
      some ((e.fs.content (lib.Join (loadedConfig lib).LogFolder "server.log")).getD "" ++
        logLine lib (setupLogging lib (loadedConfig lib).LogFolder e).2 "main.go:84"
          ("Starting " ++ (loadedConfig lib).ServerName ++ " on port " ++
            (loadedConfig lib).Port)) ∧
    (setupLogging lib (loadedConfig lib).LogFolder e).2.logFlags =
      [LogFlag.Ldate, LogFlag.Ltime, LogFlag.Lshortfile] ∧
    (setupLogging lib (loadedConfig lib).LogFolder e).2.now = e.now := by
  obtain ⟨hnil, hready, hcontent⟩ :=
    setupLogging_ready lib (loadedConfig lib).LogFolder e hopen
  have hmain : (main lib e).2.2 =
      logPrintf lib "main.go:84"
        ("Starting " ++ (loadedConfig lib).ServerName ++ " on port " ++ (loadedConfig lib).Port)
        (setupLogging lib (loadedConfig lib).LogFolder e).2 := by
    unfold loadedConfig at hnil hsrv ⊢
    have hz : Proc.init.config = Configuration.zero := rfl
    rw [hz] at hnil hsrv ⊢
    rcases hl : loadConfig lib.Load "configuration.ini" Configuration.zero with ⟨lerr, config⟩
    rw [hl] at hload hnil hsrv
    simp only at hload hnil hsrv
    subst hload
    rcases hs : setupLogging lib config.LogFolder e with ⟨serr, e1⟩
    rw [hs] at hnil
    simp only at hnil
    subst hnil
    simp [main, hl, hs, hsrv, Proc.init]
  refine ⟨?_, ?_, ?_⟩
  · rw [hmain]
    exact (LogReady.printf _ _ hready).2 _ hcontent
  · cases hn : e.fs.names (lib.Join (loadedConfig lib).LogFolder "server.log") with
    | none => simp [setupLogging, FS.OpenFile, hopen, hn, LstdFlags]
    | some i => simp [setupLogging, FS.OpenFile, hopen, hn, LstdFlags]
  · cases hn : e.fs.names (lib.Join (loadedConfig lib).LogFolder "server.log") with
    | none => simp [setupLogging, FS.OpenFile, hopen, hn]
    | some i => simp [setupLogging, FS.OpenFile, hopen, hn]

/-- Witness of the startup line on the demo configuration. -/
theorem main_startup_line_witness :
    (main demoLib demoEnv).2.2.fs.content "logs/server.log" =
      some "earlier line\nmain.go:84: Starting GoHTTP on port 8080\n" := by
  have h := (main_startup_line demoLib demoEnv (by decide) (by decide) (by decide)).1
  have h1 : demoLib.Join (loadedConfig demoLib).LogFolder "server.log" = "logs/server.log" := by
    decide
  rw [h1] at h
  rw [h]
  decide


/-! ## The program on concrete inputs -/

/-- The middleware around `notFound`, logging to standard error: one Started
line on the console, a Started and a Completed line in the log, the response of
the inner handler. -/
theorem loggingMiddleware_demo :
    (loggingMiddleware demoLib notFound emptyResponse demoRequest demoEnv).1 = .returned ∧
    (loggingMiddleware demoLib notFound emptyResponse demoRequest demoEnv).2.1 =
      { status := some 404, header := [], body := "404 page not found\n" } ∧
    (loggingMiddleware demoLib notFound emptyResponse demoRequest demoEnv).2.2.stdout =
      "Started GET /missing.txt\n" ∧
    (loggingMiddleware demoLib notFound emptyResponse demoRequest demoEnv).2.2.stderr =
      "main.go:48: Started GET /missing.txt\nmain.go:52: Completed in 0ns\n" := by
  refine ⟨rfl, rfl, rfl, ?_⟩
  decide

/-- The whole of main on the demo configuration: it is left serving on :8080,
with the startup line appended to the log of the earlier run. -/
theorem main_demo :
    (main demoLib demoEnv).1 = .serving ":8080" ∧
    (main demoLib demoEnv).2.1.config =
      { ServerName := "GoHTTP", Port := "8080", LogFolder := "logs", LogLevel := "info",
        HTMLDir := "./public" } ∧
    (main demoLib demoEnv).2.2.fs.content "logs/server.log" =
      some "earlier line\nmain.go:84: Starting GoHTTP on port 8080\n" ∧
    (main demoLib demoEnv).2.2.stdout = "" := by
  refine ⟨by decide, by decide, by decide, by decide⟩

/-- With log_level set to another value, only the field LogLevel changes. -/
theorem log_level_demo :
    (main (demoLib.withLoad (fileLoad (demoFile.setValue "server" "log_level" "debug")))
        demoEnv).2.1.config =
      { ServerName := "GoHTTP", Port := "8080", LogFolder := "logs", LogLevel := "debug",
        HTMLDir := "./public" } := by
  decide

/-- The calls of main on the demo configuration: each step once, in order. -/
theorem main_calls_demo :
    (main demoLib demoEnv).2.1.calls =
      [(Step.loadConfig, "configuration.ini"), (Step.setupLogging, "logs"),
       (Step.FileServer, "./public"), (Step.Handle, "/"), (Step.ListenAndServe, ":8080")] := by
  decide

end GoHTTP
